import Mathlib

/-!
Shallow embedding of the TrendzBR market-monitor core (alert detection and
state diffing), translated from `src/lib/models.py`, `src/lib/config.py`,
`src/lib/redis_store.py`, `src/lib/detector.py`, `src/lib/telegram_sender.py`,
`src/lib/utils.py` and `src/worker.py`.

Modelling conventions:
- Python floats (percentages, multipliers, timestamps) are modelled as `Rat`;
  none of the verified properties depend on binary floating-point rounding.
- Wall-clock instants (`datetime.now`, Redis TTL clocks) are explicit `Rat`
  parameters denoting seconds since the epoch; `datetime.isoformat` timestamps
  that are only stored, never compared, are opaque `String` parameters.
- `datetime.fromisoformat` is an explicit parameter `parse : String → Option Rat`
  (returning the epoch-seconds instant, `none` on `ValueError`); the scraper
  always produces timezone-aware ISO strings, so a parsed value is comparable.
- Redis is a record of the relevant keys: the consolidated state hash (held
  structurally rather than as JSON text, since serialization round-trips are
  identity on this data), the init marker, and the TTL dedup/cooldown keys,
  each mapped to its absolute expiry instant.  `EXISTS` on a TTL key at time
  `now` is `now < expiry`.
- Python dicts/sets are modelled extensionally as functions to `Option`/`Bool`
  (dict equality in Python is extensional).
-/

namespace TrendzBR

/-- `lib/models.py` `MarketOption`: a single option within a pool. -/
structure MarketOption where
  market_id : Int
  name : String
  yes_multiplier : Rat := 0
  no_multiplier : Rat := 0
  yes_pct : Rat := 50
  no_pct : Rat := 50
deriving Repr, DecidableEq

/-- `lib/models.py` `Pool`: a prediction market pool. -/
structure Pool where
  pool_id : String
  title : String
  category : String := ""
  end_date : Option String := none
  volume : Option String := none
  status : String := ""
  options : List MarketOption := []
  url : String := ""
deriving Repr, DecidableEq

/-- `lib/models.py` `Alert`: an alert to send via Telegram. -/
structure Alert where
  alert_type : String
  pool_id : String
  pool_title : String
  category : String
  message : String
  url : String
  priority : String := "medium"
deriving Repr, DecidableEq

/-! Configuration constants from `lib/config.py` at their defaults (the
environment-variable overrides are not modelled). -/

/-- `config.ODDS_CHANGE_THRESHOLD_PP` (default `10.0`). -/
def ODDS_CHANGE_THRESHOLD_PP : Rat := 10

/-- `config.ODDS_CHANGE_COOLDOWN_MINUTES` (default `30`). -/
def ODDS_CHANGE_COOLDOWN_MINUTES : Int := 30

/-- `config.CLOSING_WINDOWS_HOURS = [24, 6, 1]`. -/
def CLOSING_WINDOWS_HOURS : List Int := [24, 6, 1]

/-- `config.MAX_TELEGRAM_MESSAGES_PER_CYCLE = 20`. -/
def MAX_TELEGRAM_MESSAGES_PER_CYCLE : Nat := 20

/-! Numeric rendering helpers used only inside alert message bodies.
Python formats floats (`:.0f`, `:.2f`, `:+.1f`) with round-half-to-even on the
decimal expansion; this is reproduced over `Rat`.  No verified property
depends on these strings. -/

/-- Truncation toward zero, as Python `int()` on a float. -/
def ratTrunc (x : Rat) : Int :=
  if x < 0 then -((-x).floor) else x.floor

/-- Round to the nearest integer, ties to even (Python float formatting). -/
def rndHalfEven (x : Rat) : Int :=
  let f := x.floor
  let r := x - f
  if r < 1/2 then f
  else if 1/2 < r then f + 1
  else if f % 2 = 0 then f else f + 1

/-- Python `f"{x:.0f}"` over `Rat`. -/
def fmtF0 (x : Rat) : String := toString (rndHalfEven x)

/-- Python `f"{x:.2f}"` over `Rat`. -/
def fmtF2 (x : Rat) : String :=
  let n := rndHalfEven (x * 100)
  let a := n.natAbs
  (if n < 0 then "-" else "") ++ toString (a / 100) ++ "." ++
    (if a % 100 < 10 then "0" else "") ++ toString (a % 100)

/-- Python `f"{x:+.1f}"` over `Rat`. -/
def fmtSigned1 (x : Rat) : String :=
  let n := rndHalfEven (x * 10)
  let a := n.natAbs
  (if n < 0 then "-" else "+") ++ toString (a / 10) ++ "." ++ toString (a % 10)

/-- `lib/utils.py` `format_time_remaining`.  The Python function reads
`datetime.now` itself; here the same cycle instant `now` is passed in. -/
def format_time_remaining (dt now : Rat) : String :=
  let total_seconds := ratTrunc (dt - now)
  if total_seconds ≤ 0 then "ja encerrado"
  else
    let t := total_seconds.toNat
    let days := t / 86400
    let hours := (t % 86400) / 3600
    let minutes := (t % 3600) / 60
    let parts : List String :=
      (if days > 0 then [toString days ++ "d"] else []) ++
      (if hours > 0 then [toString hours ++ "h"] else []) ++
      (if minutes > 0 && days == 0 then [toString minutes ++ "min"] else [])
    if parts.isEmpty then "< 1min" else String.intercalate " " parts

/-! The persisted state, `lib/redis_store.py`. -/

/-- One entry of the `pools` field of the state hash (`save_state`). -/
structure PoolInfo where
  title : String
  category : String
  end_date : Option String
  volume : Option String
  status : String
  url : String
deriving Repr, DecidableEq

/-- One entry of the `markets` field of the state hash (`save_state`). -/
structure MarketInfo where
  name : String
  pool_id : String
deriving Repr, DecidableEq

/-- One entry of the `snapshots` field of the state hash: the latest
observation for a market (`save_state`). -/
structure Obs where
  yes_pct : Rat
  no_pct : Rat
  yes_multiplier : Rat
  no_multiplier : Rat
  ts : String
deriving Repr, DecidableEq

/-- The `meta` field of the state hash. -/
structure Meta where
  last_cycle_ts : Option String := none
  cycle_count : Nat := 0
deriving Repr, DecidableEq

/-- The consolidated `trendzbr:state` hash, held structurally (dicts and sets
extensionally, as functions; keys are the JSON string keys of the source). -/
@[ext]
structure SnapshotData where
  pools : String → Option PoolInfo
  markets : String → Option MarketInfo
  snapshots : String → Option Obs
  known_pool_ids : String → Bool
  known_market_ids : String → Bool
  meta : Meta

/-- The empty state hash (the `RedisStore.__init__` cache initialisation). -/
def emptySnapshotData : SnapshotData where
  pools := fun _ => none
  markets := fun _ => none
  snapshots := fun _ => none
  known_pool_ids := fun _ => false
  known_market_ids := fun _ => false
  meta := {}

/-- The Redis keys this core touches: the state hash (`trendzbr:state`,
`none` when the hash is empty), the init marker (`trendzbr:init`), and the
TTL dedup keys (`trendzbr:closing:{pool_id}:{window}` and
`trendzbr:cooldown:{market_id}`), each mapped to its absolute expiry. -/
@[ext]
structure RedisDB where
  state : Option SnapshotData
  init_key : Bool
  closing : String × String → Option Rat
  cooldown : Int → Option Rat

/-- `RedisStore`: the Redis connection plus the in-memory cache loaded at
cycle start (`_pools` .. `_meta`, `_is_first_run`). -/
@[ext]
structure RedisStore where
  redis : RedisDB
  cache : SnapshotData
  is_first_run : Bool

/-- `RedisStore.load_state`: one `HGETALL`; on an empty hash the cache keeps
its empty initial value and first-run is decided by the init marker. -/
def load_state (db : RedisDB) : RedisStore :=
  match db.state with
  | none => { redis := db, cache := emptySnapshotData, is_first_run := !db.init_key }
  | some d => { redis := db, cache := d, is_first_run := false }

/-- The `pools` dict entry written for a pool by `save_state`. -/
def poolInfoOf (p : Pool) : PoolInfo where
  title := p.title
  category := p.category
  end_date := p.end_date
  volume := p.volume
  status := p.status
  url := p.url

/-- The `snapshots` dict entry written for an option by `save_state`. -/
def obsOf (o : MarketOption) (nowIso : String) : Obs where
  yes_pct := o.yes_pct
  no_pct := o.no_pct
  yes_multiplier := o.yes_multiplier
  no_multiplier := o.no_multiplier
  ts := nowIso

/-- Dict update `d[k] = v` for extensional dicts. -/
def updMap {β : Type} (f : String → Option β) (k : String) (v : β) :
    String → Option β :=
  fun k' => if k' = k then some v else f k'

/-- Set insertion `s.add(k)` for extensional sets. -/
def addSet (s : String → Bool) (k : String) : String → Bool :=
  fun k' => if k' = k then true else s k'

/-- The inner `for opt in pool.options` loop of `save_state`. -/
def save_opts (p : Pool) (nowIso : String) : SnapshotData → List MarketOption → SnapshotData
  | c, [] => c
  | c, o :: os =>
    let mid := toString o.market_id
    save_opts p nowIso
      { c with
        markets := updMap c.markets mid { name := o.name, pool_id := p.pool_id }
        known_market_ids := addSet c.known_market_ids mid
        snapshots := updMap c.snapshots mid (obsOf o nowIso) } os

/-- The body of the `for pool in pools` loop of `save_state`. -/
def save_pool (nowIso : String) (c : SnapshotData) (p : Pool) : SnapshotData :=
  save_opts p nowIso
    { c with
      pools := updMap c.pools p.pool_id (poolInfoOf p)
      known_pool_ids := addSet c.known_pool_ids p.pool_id } p.options

/-- `RedisStore.save_state`: merge the current pools into the cache, stamp the
cycle metadata, persist the whole hash in one `HSET`, and write the init
marker on first run.  `nowIso` is the cycle's `datetime.now().isoformat()`. -/
def save_state (st : RedisStore) (pools : List Pool) (nowIso : String) : RedisStore :=
  let c := pools.foldl (save_pool nowIso) st.cache
  let c := { c with meta := { last_cycle_ts := some nowIso,
                              cycle_count := c.meta.cycle_count + 1 } }
  { st with
    cache := c
    redis := { st.redis with
      state := some c
      init_key := if st.is_first_run then true else st.redis.init_key } }

/-! Cache query methods and TTL dedup methods of `RedisStore`. -/

/-- `RedisStore.get_known_pool_ids` (in-memory cache). -/
def get_known_pool_ids (st : RedisStore) : String → Bool :=
  st.cache.known_pool_ids

/-- `RedisStore.get_known_market_ids` (in-memory cache, string ids). -/
def get_known_market_ids (st : RedisStore) : String → Bool :=
  st.cache.known_market_ids

/-- `RedisStore.get_latest_snapshot` (in-memory cache, keyed by `str(mid)`). -/
def get_latest_snapshot (st : RedisStore) (market_id : Int) : Option Obs :=
  st.cache.snapshots (toString market_id)

/-- `RedisStore.has_closing_alert_been_sent`: `EXISTS` on the closing dedup
key at instant `now`. -/
def has_closing_alert_been_sent (st : RedisStore) (pool_id window : String)
    (now : Rat) : Bool :=
  match st.redis.closing (pool_id, window) with
  | some e => decide (now < e)
  | none => false

/-- `RedisStore.record_closing_alert`: `SET key "1" ex=86400`. -/
def record_closing_alert (st : RedisStore) (pool_id window : String)
    (now : Rat) : RedisStore :=
  { st with redis := { st.redis with
      closing := fun k =>
        if k = (pool_id, window) then some (now + 86400) else st.redis.closing k } }

/-- `RedisStore.is_odds_on_cooldown`: `EXISTS` on the cooldown key at `now`. -/
def is_odds_on_cooldown (st : RedisStore) (market_id : Int) (now : Rat) : Bool :=
  match st.redis.cooldown market_id with
  | some e => decide (now < e)
  | none => false

/-- `RedisStore.record_odds_cooldown`: `SET key "1" ex=cooldown_minutes*60`. -/
def record_odds_cooldown (st : RedisStore) (market_id : Int) (now : Rat) : RedisStore :=
  { st with redis := { st.redis with
      cooldown := fun k =>
        if k = market_id then some (now + (ODDS_CHANGE_COOLDOWN_MINUTES : Rat) * 60)
        else st.redis.cooldown k } }

/-! The alert detector, `lib/detector.py`.  The detector holds a `RedisStore`;
here the store is threaded explicitly.  `parse` stands for
`datetime.fromisoformat` and `now` for the cycle instant (see the header). -/

/-- Python truthiness of `pool.end_date` (`None` and `""` are falsy). -/
def endDateTruthy : Option String → Bool
  | none => false
  | some s => !(s == "")

/-- The pool-level `new_market` alert built by `check_new_markets`. -/
def new_pool_alert (parse : String → Option Rat) (now : Rat) (p : Pool) : Alert :=
  let options_text := (p.options.take 5).foldl (fun acc o =>
    acc ++ "  - " ++ o.name ++ ": Sim " ++ fmtF0 o.yes_pct ++ "% (" ++
      fmtF2 o.yes_multiplier ++ "x) / Nao " ++ fmtF0 o.no_pct ++ "% (" ++
      fmtF2 o.no_multiplier ++ "x)\n") ""
  let options_text := options_text ++
    (if p.options.length > 5 then
      "  ... e mais " ++ toString (p.options.length - 5) ++ " opcoes\n" else "")
  let end_info :=
    match p.end_date with
    | none => ""
    | some s =>
      if s == "" then "" else
      match parse s with
      | some end_dt => "\n📅 Encerramento em: " ++ format_time_remaining end_dt now
      | none => "\n📅 Encerramento: " ++ s
  { alert_type := "new_market"
    pool_id := p.pool_id
    pool_title := p.title
    category := p.category
    message := "🆕 NOVO MERCADO\n\n📊 " ++ p.title ++ "\n📁 Categoria: " ++
      p.category ++ end_info ++ "\n\nOpcoes:\n" ++ options_text ++ "\n🔗 " ++ p.url
    url := p.url
    priority := "medium" }

/-- The per-option `new_market` alert built by `check_new_markets`. -/
def new_option_alert (p : Pool) (o : MarketOption) : Alert :=
  { alert_type := "new_market"
    pool_id := p.pool_id
    pool_title := p.title
    category := p.category
    message := "🆕 NOVA OPCAO EM MERCADO\n\n📊 " ++ p.title ++ "\n👤 " ++
      o.name ++ "\nSim " ++ fmtF0 o.yes_pct ++ "% (" ++ fmtF2 o.yes_multiplier ++
      "x) / Nao " ++ fmtF0 o.no_pct ++ "% (" ++ fmtF2 o.no_multiplier ++
      "x)\n\n🔗 " ++ p.url
    url := p.url
    priority := "low" }

/-- The body of the `for pool in current_pools` loop of `check_new_markets`:
a pool-level alert for an unknown pool, otherwise per-option alerts for its
unknown options (the two branches are exclusive). -/
def new_markets_pool (parse : String → Option Rat) (now : Rat)
    (st : RedisStore) (pool : Pool) : List Alert :=
  if !(get_known_pool_ids st pool.pool_id) then
    [new_pool_alert parse now pool]
  else
    (pool.options.filter
      (fun opt => !(get_known_market_ids st (toString opt.market_id)))).map
      (new_option_alert pool)

/-- `AlertDetector.check_new_markets`: detect new pools and new options within
existing pools.  Reads only the in-memory cache; mutates nothing. -/
def check_new_markets (parse : String → Option Rat) (now : Rat)
    (st : RedisStore) (current_pools : List Pool) : List Alert :=
  current_pools.flatMap (new_markets_pool parse now st)

/-- The `odds_change` alert built by `check_odds_changes`. -/
def odds_alert (p : Pool) (o : MarketOption) (prev : Obs) : Alert :=
  let change_pp := o.yes_pct - prev.yes_pct
  let direction := if change_pp > 0 then "⬆️" else "⬇️"
  { alert_type := "odds_change"
    pool_id := p.pool_id
    pool_title := p.title
    category := p.category
    message := "📈 MUDANCA DE ODDS\n\n📊 " ++ p.title ++ "\n👤 " ++ o.name ++
      "\n\nAntes: Sim " ++ fmtF0 prev.yes_pct ++ "% (" ++ fmtF2 prev.yes_multiplier ++
      "x) / Nao " ++ fmtF0 prev.no_pct ++ "% (" ++ fmtF2 prev.no_multiplier ++
      "x)\nAgora: Sim " ++ fmtF0 o.yes_pct ++ "% (" ++ fmtF2 o.yes_multiplier ++
      "x) / Nao " ++ fmtF0 o.no_pct ++ "% (" ++ fmtF2 o.no_multiplier ++
      "x)\nVariacao: " ++ direction ++ " " ++ fmtSigned1 change_pp ++
      "pp\n\n🔗 " ++ p.url
    url := p.url
    priority := if 20 ≤ |change_pp| then "high" else "medium" }

/-- The body of the inner option loop of `check_odds_changes`: skip without a
baseline, below threshold, or on cooldown; otherwise record the cooldown and
emit one alert. -/
def odds_step (now : Rat) (p : Pool) (o : MarketOption) (st : RedisStore) :
    List Alert × RedisStore :=
  match get_latest_snapshot st o.market_id with
  | none => ([], st)
  | some prev =>
    let change_pp := o.yes_pct - prev.yes_pct
    if |change_pp| < ODDS_CHANGE_THRESHOLD_PP then ([], st)
    else if is_odds_on_cooldown st o.market_id now then ([], st)
    else ([odds_alert p o prev], record_odds_cooldown st o.market_id now)

/-- The option loop of `check_odds_changes` for one pool. -/
def odds_opts_loop (now : Rat) (p : Pool) :
    List MarketOption → RedisStore → List Alert × RedisStore
  | [], st => ([], st)
  | o :: os, st =>
    let r := odds_step now p o st
    let rest := odds_opts_loop now p os r.2
    (r.1 ++ rest.1, rest.2)

/-- `AlertDetector.check_odds_changes`: detect significant odds changes
compared to the last snapshot, recording a cooldown per emitted alert. -/
def check_odds_changes (now : Rat) :
    List Pool → RedisStore → List Alert × RedisStore
  | [], st => ([], st)
  | p :: ps, st =>
    let r := odds_opts_loop now p p.options st
    let rest := check_odds_changes now ps r.2
    (r.1 ++ rest.1, rest.2)

/-- Stable descending insertion by `yes_pct`
(`sorted(pool.options, key=lambda o: o.yes_pct, reverse=True)`). -/
def insertByYesDesc (o : MarketOption) : List MarketOption → List MarketOption
  | [] => [o]
  | x :: xs =>
    if x.yes_pct ≤ o.yes_pct then o :: x :: xs else x :: insertByYesDesc o xs

/-- Stable descending sort by `yes_pct`, as Python `sorted(..., reverse=True)`. -/
def sortByYesDesc : List MarketOption → List MarketOption
  | [] => []
  | x :: xs => insertByYesDesc x (sortByYesDesc xs)

/-- The `closing_soon` alert built by `check_closing_soon` for one window. -/
def closing_alert (now : Rat) (p : Pool) (end_dt : Rat) (window_hours : Int) : Alert :=
  let priority :=
    if window_hours ≤ 1 then "high"
    else if window_hours ≤ 6 then "medium"
    else "low"
  let status_lines := ((sortByYesDesc p.options).take 5).foldl (fun acc o =>
    acc ++ "  - " ++ o.name ++ ": " ++ fmtF0 o.yes_pct ++ "% (Sim " ++
      fmtF2 o.yes_multiplier ++ "x)\n") ""
  { alert_type := "closing_soon"
    pool_id := p.pool_id
    pool_title := p.title
    category := p.category
    message := "⏰ MERCADO FECHANDO EM BREVE\n\n📊 " ++ p.title ++
      "\n📁 Categoria: " ++ p.category ++ "\n⏳ Fecha em: ~" ++
      format_time_remaining end_dt now ++ "\n\nSituacao atual:\n" ++
      status_lines ++ "\n🔗 " ++ p.url
    url := p.url
    priority := priority }

/-- The window loop of `check_closing_soon` for one pool: skip windows the
pool is not yet inside, skip already-recorded windows, and on the first
unrecorded applicable window emit one alert, record it, and `break`. -/
def closing_windows_loop (now : Rat) (p : Pool) (end_dt hours_left : Rat) :
    List Int → RedisStore → List Alert × RedisStore
  | [], st => ([], st)
  | w :: ws, st =>
    if hours_left > (w : Rat) then closing_windows_loop now p end_dt hours_left ws st
    else
      let window_key := toString w ++ "h"
      if has_closing_alert_been_sent st p.pool_id window_key now then
        closing_windows_loop now p end_dt hours_left ws st
      else
        ([closing_alert now p end_dt w],
         record_closing_alert st p.pool_id window_key now)

/-- The per-pool body of `check_closing_soon`: falsy or unparseable end dates
and already-ended pools are skipped. -/
def closing_pool_step (parse : String → Option Rat) (now : Rat) (p : Pool)
    (st : RedisStore) : List Alert × RedisStore :=
  match p.end_date with
  | none => ([], st)
  | some s =>
    if s == "" then ([], st)
    else
      match parse s with
      | none => ([], st)
      | some end_dt =>
        let time_left := end_dt - now
        if time_left ≤ 0 then ([], st)
        else
          closing_windows_loop now p end_dt (time_left / 3600)
            CLOSING_WINDOWS_HOURS st

/-- `AlertDetector.check_closing_soon`: detect markets about to close. -/
def check_closing_soon (parse : String → Option Rat) (now : Rat) :
    List Pool → RedisStore → List Alert × RedisStore
  | [], st => ([], st)
  | p :: ps, st =>
    let r := closing_pool_step parse now p st
    let rest := check_closing_soon parse now ps r.2
    (r.1 ++ rest.1, rest.2)

/-! The transport, `lib/telegram_sender.py`, and the cycle orchestrator,
`src/worker.py` (`api/monitor.py` `run_cycle` has the same structure). -/

/-- `TelegramSender.send_alerts_batch`: attempt the first
`MAX_TELEGRAM_MESSAGES_PER_CYCLE` alerts and count the successes.  `ok i`
abstracts whether the HTTP send of the i-th attempted message succeeds; the
overflow notice and the inter-message delay do not affect the count. -/
def send_alerts_batch (ok : Nat → Bool) (alerts : List Alert) : Nat :=
  (((alerts.take MAX_TELEGRAM_MESSAGES_PER_CYCLE).enum).filter
    (fun ia => ok ia.1)).length

/-- The summary dict returned by `run_market_cycle` (the wall-clock `elapsed`
field is not modelled). -/
structure CycleResult where
  status : String
  message : Option String := none
  pools : Option Nat := none
  options : Option Nat := none
  alerts_detected : Option Nat := none
  alerts_sent : Option Nat := none
  first_run : Option Bool := none
deriving Repr, DecidableEq

/-- A cycle's reified effects: the returned summary, the store (cache plus
Redis) after the cycle, and the alerts handed to the Telegram transport. -/
structure CycleOut where
  result : CycleResult
  store : RedisStore
  attempted : List Alert

/-- The detection phase of `run_market_cycle`: on first run all three rules
are skipped, otherwise they run in order, threading the store. -/
def detect_phase (parse : String → Option Rat) (now : Rat)
    (st : RedisStore) (pools : List Pool) : List Alert × RedisStore :=
  if st.is_first_run then ([], st)
  else
    let a1 := check_new_markets parse now st pools
    let r2 := check_odds_changes now pools st
    let r3 := check_closing_soon parse now pools r2.2
    (a1 ++ r2.1 ++ r3.1, r3.2)

/-- `worker.run_market_cycle`: load state, take the fetched pools (the scraper
is a collaborator, so its result is a parameter), return early with a warning
on an empty fetch, otherwise detect (skipping all rules on first run), send,
and save.  `ok` abstracts per-message transport success. -/
def run_market_cycle (parse : String → Option Rat) (now : Rat) (nowIso : String)
    (ok : Nat → Bool) (db : RedisDB) (fetched : List Pool) : CycleOut :=
  let store := load_state db
  if fetched.isEmpty then
    { result := { status := "warning", message := some "No pools found" }
      store := store
      attempted := [] }
  else
    let r := detect_phase parse now store fetched
    let alerts := r.1
    let sent_count := if alerts.isEmpty then 0 else send_alerts_batch ok alerts
    let store2 := save_state r.2 fetched nowIso
    { result := { status := "ok"
                  pools := some fetched.length
                  options := some (fetched.map (fun p => p.options.length)).sum
                  alerts_detected := some alerts.length
                  alerts_sent := some sent_count
                  first_run := some store2.is_first_run }
      store := store2
      attempted := if alerts.isEmpty then [] else
        alerts.take MAX_TELEGRAM_MESSAGES_PER_CYCLE }

/-! Specification-level companions used to state the theorems. -/

/-- The per-option emission decision of `check_odds_changes`, evaluated
against one fixed store: `some alert` exactly when a baseline observation
exists, the absolute change reaches the threshold, and the market is not on
cooldown — the three skip conditions of the source loop. -/
def odds_decision (st : RedisStore) (now : Rat) (p : Pool) (o : MarketOption) :
    Option Alert :=
  match get_latest_snapshot st o.market_id with
  | none => none
  | some prev =>
    if |o.yes_pct - prev.yes_pct| < ODDS_CHANGE_THRESHOLD_PP then none
    else if is_odds_on_cooldown st o.market_id now then none
    else some (odds_alert p o prev)

/-- Remove every option of market `m` from a pool (used to express that a
market on cooldown is invisible to `check_odds_changes`). -/
def erase_market (m : Int) (p : Pool) : Pool :=
  { p with options := p.options.filter (fun o => !(o.market_id == m)) }

/-! Concrete fixtures for the closed witness and counterexample theorems. -/

/-- A parse function sending the end-date string `"e"` to epoch second 18000
(five hours after instant 0) and rejecting everything else. -/
def exParse : String → Option Rat :=
  fun s => if s = "e" then some 18000 else none

/-- An empty Redis database: no state hash, no init marker, no dedup keys. -/
def exDB : RedisDB :=
  { state := none, init_key := false, closing := fun _ => none, cooldown := fun _ => none }

/-- The store of a first run: `load_state` over the empty database. -/
def exStore : RedisStore := load_state exDB

/-- A single market option with id 1. -/
def exOpt : MarketOption := { market_id := 1, name := "A" }

/-- A pool whose end date parses to five hours after instant 0. -/
def exClosingPool : Pool :=
  { pool_id := "p1", title := "T", end_date := some "e", options := [exOpt] }

/-- An option of market 1 currently at 65% yes. -/
def exOpt65 : MarketOption := { market_id := 1, name := "A", yes_pct := 65 }

/-- A pool holding only `exOpt65`. -/
def exOddsPool : Pool := { pool_id := "p1", title := "T", options := [exOpt65] }

/-- A store whose snapshot remembers market 1 at 50% yes. -/
def exSnapStore : RedisStore :=
  { exStore with cache := { exStore.cache with
      snapshots := updMap exStore.cache.snapshots "1"
        (obsOf { market_id := 1, name := "A", yes_pct := 50 } "t0") } }

/-- A second market option with id 2. -/
def exOpt2 : MarketOption := { market_id := 2, name := "B" }

/-- A pool with one new option (market 1) and one known option (market 2). -/
def exMixedPool : Pool :=
  { pool_id := "p1", title := "T", options := [exOpt, exOpt2] }

/-- A store that already knows pool `"p1"` and market `"2"`. -/
def exKnownStore : RedisStore :=
  { exStore with cache := { exStore.cache with
      known_pool_ids := addSet exStore.cache.known_pool_ids "p1"
      known_market_ids := addSet exStore.cache.known_market_ids "2" } }

/-- A store with an active cooldown for market 1 (expiry at instant 1800)
over the remembered snapshot of market 1. -/
def exCooldownStore : RedisStore :=
  { exSnapStore with redis := { exSnapStore.redis with
      cooldown := fun k => if k = 1 then some 1800 else none } }

/-! Theorems. -/

/-- Loading preserves the Redis contents: the cache is a copy. -/
theorem load_state_redis (db : RedisDB) : (load_state db).redis = db := by
  unfold load_state
  cases db.state <;> rfl

/-- `save_state` touches only the state hash and the init marker: the TTL
cooldown keys are untouched. -/
theorem save_state_cooldown (st : RedisStore) (pools : List Pool) (nowIso : String) :
    (save_state st pools nowIso).redis.cooldown = st.redis.cooldown := rfl

/-- `save_state` touches only the state hash and the init marker: the TTL
closing dedup keys are untouched. -/
theorem save_state_closing (st : RedisStore) (pools : List Pool) (nowIso : String) :
    (save_state st pools nowIso).redis.closing = st.redis.closing := rfl

/-- C8: an empty fetched Pool list ends the cycle early with the warning
result: nothing is handed to the transport, and the Redis contents — state
hash, init marker, and every dedup/cooldown key — are exactly what they were
before the cycle. -/
theorem empty_fetch_cycle (parse : String → Option Rat) (now : Rat)
    (nowIso : String) (ok : Nat → Bool) (db : RedisDB) :
    (run_market_cycle parse now nowIso ok db []).result =
      { status := "warning", message := some "No pools found" }
    ∧ (run_market_cycle parse now nowIso ok db []).attempted = []
    ∧ (run_market_cycle parse now nowIso ok db []).store.redis = db := by
  refine ⟨rfl, rfl, ?_⟩
  exact load_state_redis db

/-- C10: whatever the transport does (`ok` is arbitrary, covering failed
sends and the 20-message cap), the cooldown and closing-dedup keys after the
full cycle are exactly those recorded by the detection phase: delivery never
adds, removes, or reschedules a Ledger entry. -/
theorem ledger_written_before_send (parse : String → Option Rat) (now : Rat)
    (nowIso : String) (ok : Nat → Bool) (db : RedisDB) (fetched : List Pool)
    (h : fetched ≠ []) :
    (run_market_cycle parse now nowIso ok db fetched).store.redis.cooldown
      = (detect_phase parse now (load_state db) fetched).2.redis.cooldown
    ∧ (run_market_cycle parse now nowIso ok db fetched).store.redis.closing
      = (detect_phase parse now (load_state db) fetched).2.redis.closing := by
  have hf : fetched.isEmpty = false := by
    simp [List.isEmpty_iff, h]
  unfold run_market_cycle
  rw [hf]
  exact ⟨rfl, rfl⟩

/-- Closed witness for the theorem of C10 at a concrete non-empty fetch. -/
theorem ledger_written_before_send_witness :
    [exClosingPool] ≠ ([] : List Pool)
    ∧ ((run_market_cycle exParse 0 "t0" (fun _ => false) exDB [exClosingPool]).store.redis.cooldown
        = (detect_phase exParse 0 (load_state exDB) [exClosingPool]).2.redis.cooldown
      ∧ (run_market_cycle exParse 0 "t0" (fun _ => false) exDB [exClosingPool]).store.redis.closing
        = (detect_phase exParse 0 (load_state exDB) [exClosingPool]).2.redis.closing) :=
  ⟨by simp, ledger_written_before_send exParse 0 "t0" (fun _ => false) exDB [exClosingPool] (by simp)⟩

/-- C9 counterexample: recording the same closing dedup key a second time
before the first recording's expiry (at instant 1, expiry 86400) changes the
Ledger state — the key's expiry moves from 86400 to 86401. -/
theorem record_twice_changes_expiry :
    (0 : Rat) ≤ 1 ∧ (1 : Rat) < 0 + 86400
    ∧ (record_closing_alert (record_closing_alert exStore "p1" "24h" 0) "p1" "24h" 1).redis.closing
        ("p1", "24h")
      ≠ (record_closing_alert exStore "p1" "24h" 0).redis.closing ("p1", "24h") := by
  refine ⟨by norm_num, by norm_num, ?_⟩
  simp [record_closing_alert]

/-- C9 (amended): `Record` re-arms the expiry rather than being a no-op.  A
second recording of the same key sets its expiry to a full TTL from the
second recording's instant (presence is preserved), and the Ledger state
after the second recording equals the state after the first alone exactly
when both recordings happen at the same instant — at the same instant,
recording twice is literally the same state as recording once.  This holds
for both the closing dedup keys and the odds cooldown keys. -/
theorem record_rearms_ttl (st : RedisStore) (pid w : String) (m : Int)
    (now now2 : Rat) :
    record_closing_alert (record_closing_alert st pid w now) pid w now
      = record_closing_alert st pid w now
    ∧ (record_closing_alert (record_closing_alert st pid w now) pid w now2).redis.closing
        (pid, w) = some (now2 + 86400)
    ∧ record_odds_cooldown (record_odds_cooldown st m now) m now
      = record_odds_cooldown st m now
    ∧ (record_odds_cooldown (record_odds_cooldown st m now) m now2).redis.cooldown m
      = some (now2 + (ODDS_CHANGE_COOLDOWN_MINUTES : Rat) * 60) := by
  refine ⟨?_, by simp [record_closing_alert], ?_, by simp [record_odds_cooldown]⟩
  · refine RedisStore.ext (RedisDB.ext rfl rfl ?_ rfl) rfl rfl
    funext k
    by_cases h : k = (pid, w) <;> simp [record_closing_alert, h]
  · refine RedisStore.ext (RedisDB.ext rfl rfl rfl ?_) rfl rfl
    funext k
    by_cases h : k = m <;> simp [record_odds_cooldown, h]

/-- A store that reports first run was loaded from an empty state hash, so
its cache is the empty one. -/
theorem load_first_run_cache (db : RedisDB)
    (h : (load_state db).is_first_run = true) :
    (load_state db).cache = emptySnapshotData := by
  unfold load_state at *
  cases hdb : db.state with
  | none => simp [hdb]
  | some d => rw [hdb] at h; simp at h

/-- The inner option loop of `save_state` does not touch the `pools` dict. -/
theorem save_opts_pools (p : Pool) (n : String) :
    ∀ (os : List MarketOption) (c : SnapshotData),
    (save_opts p n c os).pools = c.pools := by
  intro os
  induction os with
  | nil => intro c; rfl
  | cons o os ih => intro c; rw [save_opts, ih]

/-- The inner option loop of `save_state` does not touch `known_pool_ids`. -/
theorem save_opts_known_pool_ids (p : Pool) (n : String) :
    ∀ (os : List MarketOption) (c : SnapshotData),
    (save_opts p n c os).known_pool_ids = c.known_pool_ids := by
  intro os
  induction os with
  | nil => intro c; rfl
  | cons o os ih => intro c; rw [save_opts, ih]

/-- Lookup after the option loop of `save_state`: the `markets` entry at `k`
is the last write among the options keyed `k`, else the previous entry. -/
theorem save_opts_markets (p : Pool) (n : String) (k : String) :
    ∀ (os : List MarketOption) (c : SnapshotData),
    (save_opts p n c os).markets k
      = os.foldl (fun a o =>
          if k = toString o.market_id then
            some { name := o.name, pool_id := p.pool_id } else a) (c.markets k) := by
  intro os
  induction os with
  | nil => intro c; rfl
  | cons o os ih =>
    intro c
    rw [save_opts, ih, List.foldl_cons]
    rfl

/-- Lookup after the option loop of `save_state`: the `snapshots` entry at
`k` is the last observation written for `k`, else the previous entry. -/
theorem save_opts_snapshots (p : Pool) (n : String) (k : String) :
    ∀ (os : List MarketOption) (c : SnapshotData),
    (save_opts p n c os).snapshots k
      = os.foldl (fun a o =>
          if k = toString o.market_id then some (obsOf o n) else a)
        (c.snapshots k) := by
  intro os
  induction os with
  | nil => intro c; rfl
  | cons o os ih =>
    intro c
    rw [save_opts, ih, List.foldl_cons]
    rfl

/-- Membership after the option loop of `save_state`: `known_market_ids`. -/
theorem save_opts_known_market_ids (p : Pool) (n : String) (k : String) :
    ∀ (os : List MarketOption) (c : SnapshotData),
    (save_opts p n c os).known_market_ids k
      = os.foldl (fun a o => if k = toString o.market_id then true else a)
        (c.known_market_ids k) := by
  intro os
  induction os with
  | nil => intro c; rfl
  | cons o os ih =>
    intro c
    rw [save_opts, ih, List.foldl_cons]
    rfl

/-- Lookup after the pool loop of `save_state`: the `pools` entry at `k` is
the last write among the pools keyed `k`, else the previous entry. -/
theorem save_fold_pools (n : String) (k : String) :
    ∀ (ps : List Pool) (c : SnapshotData),
    (ps.foldl (save_pool n) c).pools k
      = ps.foldl (fun a p => if k = p.pool_id then some (poolInfoOf p) else a)
        (c.pools k) := by
  intro ps
  induction ps with
  | nil => intro c; rfl
  | cons p ps ih =>
    intro c
    rw [List.foldl_cons, List.foldl_cons, ih]
    have : (save_pool n c p).pools k
        = if k = p.pool_id then some (poolInfoOf p) else c.pools k := by
      rw [save_pool, save_opts_pools]
      rfl
    rw [this]

/-- Membership after the pool loop of `save_state`: `known_pool_ids`. -/
theorem save_fold_known_pool_ids (n : String) (k : String) :
    ∀ (ps : List Pool) (c : SnapshotData),
    (ps.foldl (save_pool n) c).known_pool_ids k
      = ps.foldl (fun a p => if k = p.pool_id then true else a)
        (c.known_pool_ids k) := by
  intro ps
  induction ps with
  | nil => intro c; rfl
  | cons p ps ih =>
    intro c
    rw [List.foldl_cons, List.foldl_cons, ih]
    have : (save_pool n c p).known_pool_ids k
        = if k = p.pool_id then true else c.known_pool_ids k := by
      rw [save_pool, save_opts_known_pool_ids]
      rfl
    rw [this]

/-- Lookup after the pool loop of `save_state`: the `markets` entry. -/
theorem save_fold_markets (n : String) (k : String) :
    ∀ (ps : List Pool) (c : SnapshotData),
    (ps.foldl (save_pool n) c).markets k
      = ps.foldl (fun a p => p.options.foldl (fun a' o =>
          if k = toString o.market_id then
            some { name := o.name, pool_id := p.pool_id } else a') a)
        (c.markets k) := by
  intro ps
  induction ps with
  | nil => intro c; rfl
  | cons p ps ih =>
    intro c
    rw [List.foldl_cons, List.foldl_cons, ih]
    have : (save_pool n c p).markets k
        = p.options.foldl (fun a' o =>
            if k = toString o.market_id then
              some { name := o.name, pool_id := p.pool_id } else a') (c.markets k) := by
      rw [save_pool, save_opts_markets]
    rw [this]

/-- Lookup after the pool loop of `save_state`: the `snapshots` entry. -/
theorem save_fold_snapshots (n : String) (k : String) :
    ∀ (ps : List Pool) (c : SnapshotData),
    (ps.foldl (save_pool n) c).snapshots k
      = ps.foldl (fun a p => p.options.foldl (fun a' o =>
          if k = toString o.market_id then some (obsOf o n) else a') a)
        (c.snapshots k) := by
  intro ps
  induction ps with
  | nil => intro c; rfl
  | cons p ps ih =>
    intro c
    rw [List.foldl_cons, List.foldl_cons, ih]
    have : (save_pool n c p).snapshots k
        = p.options.foldl (fun a' o =>
            if k = toString o.market_id then some (obsOf o n) else a') (c.snapshots k) := by
      rw [save_pool, save_opts_snapshots]
    rw [this]

/-- Membership after the pool loop of `save_state`: `known_market_ids`. -/
theorem save_fold_known_market_ids (n : String) (k : String) :
    ∀ (ps : List Pool) (c : SnapshotData),
    (ps.foldl (save_pool n) c).known_market_ids k
      = ps.foldl (fun a p => p.options.foldl (fun a' o =>
          if k = toString o.market_id then true else a') a)
        (c.known_market_ids k) := by
  intro ps
  induction ps with
  | nil => intro c; rfl
  | cons p ps ih =>
    intro c
    rw [List.foldl_cons, List.foldl_cons, ih]
    have : (save_pool n c p).known_market_ids k
        = p.options.foldl (fun a' o =>
            if k = toString o.market_id then true else a') (c.known_market_ids k) := by
      rw [save_pool, save_opts_known_market_ids]
    rw [this]

/-- A fold whose every step is either the identity on the accumulator or
independent of it is, as a whole, either the identity or independent of the
initial accumulator. -/
theorem foldl_dichotomy {α β : Type} (g : β → α → β)
    (hg : ∀ x, (∀ a, g a x = a) ∨ (∀ a b, g a x = g b x)) :
    ∀ l : List α, (∀ a, l.foldl g a = a) ∨ (∀ a b, l.foldl g a = l.foldl g b) := by
  intro l
  induction l with
  | nil => left; intro a; rfl
  | cons x xs ih =>
    rcases hg x with hx | hx
    · rcases ih with h | h
      · left
        intro a
        rw [List.foldl_cons, hx a, h a]
      · right
        intro a b
        rw [List.foldl_cons, List.foldl_cons]
        exact h (g a x) (g b x)
    · right
      intro a b
      rw [List.foldl_cons, List.foldl_cons, hx a b]

/-- Last-write-wins folds are idempotent: running the same fold again on its
own result changes nothing. -/
theorem foldl_overwrite_idem {α β : Type} (g : β → α → β)
    (hg : ∀ x, (∀ a, g a x = a) ∨ (∀ a b, g a x = g b x))
    (l : List α) (a : β) :
    l.foldl g (l.foldl g a) = l.foldl g a := by
  rcases foldl_dichotomy g hg l with h | h
  · exact h (l.foldl g a)
  · exact h (l.foldl g a) a

/-- A fold of conditional set-insertions computes membership. -/
theorem foldl_set_or (x : String) (f : Pool → String) :
    ∀ (ps : List Pool) (b : Bool),
    ps.foldl (fun a p => if x = f p then true else a) b
      = (b || decide (x ∈ ps.map f)) := by
  intro ps
  induction ps with
  | nil => intro b; simp
  | cons p ps ih =>
    intro b
    rw [List.foldl_cons, ih]
    by_cases h : x = f p <;> simp [h]

/-- `save_state` leaves the cache's `pools` dict as the pool loop left it. -/
theorem save_state_pools (st : RedisStore) (ps : List Pool) (n : String) (k : String) :
    (save_state st ps n).cache.pools k = (ps.foldl (save_pool n) st.cache).pools k := rfl

/-- `save_state` membership of `known_pool_ids`: union of the previous set
with the ids of the saved pools. -/
theorem save_state_known_pool_ids (st : RedisStore) (ps : List Pool)
    (n : String) (x : String) :
    (save_state st ps n).cache.known_pool_ids x
      = (st.cache.known_pool_ids x || decide (x ∈ ps.map Pool.pool_id)) := by
  have h1 : (save_state st ps n).cache.known_pool_ids x
      = (ps.foldl (save_pool n) st.cache).known_pool_ids x := rfl
  rw [h1, save_fold_known_pool_ids, foldl_set_or]

/-- C7: running `save_state` twice in sequence with the same Pool list (and
the same cycle timestamp) produces the same Snapshot as running it once: the
`pools`/`markets` dicts, the per-market latest-observation dict, and both
known-id sets are unchanged by the second call (only the cycle counter and
timestamp in `meta` advance, which the claim excludes). -/
theorem save_state_idempotent (st : RedisStore) (ps : List Pool) (nowIso : String) :
    (∀ k, (save_state (save_state st ps nowIso) ps nowIso).cache.pools k
      = (save_state st ps nowIso).cache.pools k)
    ∧ (∀ k, (save_state (save_state st ps nowIso) ps nowIso).cache.markets k
      = (save_state st ps nowIso).cache.markets k)
    ∧ (∀ k, (save_state (save_state st ps nowIso) ps nowIso).cache.snapshots k
      = (save_state st ps nowIso).cache.snapshots k)
    ∧ (∀ x, (save_state (save_state st ps nowIso) ps nowIso).cache.known_pool_ids x
      = (save_state st ps nowIso).cache.known_pool_ids x)
    ∧ (∀ x, (save_state (save_state st ps nowIso) ps nowIso).cache.known_market_ids x
      = (save_state st ps nowIso).cache.known_market_ids x) := by
  have hpoolsDi : ∀ (k : String) (p : Pool),
      (∀ a : Option PoolInfo, (if k = p.pool_id then some (poolInfoOf p) else a) = a)
      ∨ (∀ a b : Option PoolInfo,
          (if k = p.pool_id then some (poolInfoOf p) else a)
            = if k = p.pool_id then some (poolInfoOf p) else b) := by
    intro k p
    by_cases h : k = p.pool_id
    · right; intro a b; simp [h]
    · left; intro a; simp [h]
  have hsetDi : ∀ (k : String) (p : Pool),
      (∀ a : Bool, (if k = p.pool_id then true else a) = a)
      ∨ (∀ a b : Bool,
          (if k = p.pool_id then true else a) = if k = p.pool_id then true else b) := by
    intro k p
    by_cases h : k = p.pool_id
    · right; intro a b; simp [h]
    · left; intro a; simp [h]
  refine ⟨?_, ?_, ?_, ?_, ?_⟩
  · intro k
    rw [save_state_pools, save_state_pools, save_fold_pools, save_fold_pools]
    have h1 : (save_state st ps nowIso).cache.pools k
        = ps.foldl (fun a p => if k = p.pool_id then some (poolInfoOf p) else a)
          (st.cache.pools k) := by
      rw [save_state_pools, save_fold_pools]
    rw [h1]
    exact foldl_overwrite_idem _ (hpoolsDi k) ps (st.cache.pools k)
  · intro k
    have hm : ∀ (c : SnapshotData), (save_state st ps nowIso).cache = c →
        (save_state (save_state st ps nowIso) ps nowIso).cache.markets k
          = ps.foldl (fun a p => p.options.foldl (fun a' o =>
              if k = toString o.market_id then
                some { name := o.name, pool_id := p.pool_id } else a') a)
            (c.markets k) := by
      intro c hc
      have : (save_state (save_state st ps nowIso) ps nowIso).cache.markets k
          = (ps.foldl (save_pool nowIso) (save_state st ps nowIso).cache).markets k := rfl
      rw [this, save_fold_markets, hc]
    have h2 : (save_state st ps nowIso).cache.markets k
        = ps.foldl (fun a p => p.options.foldl (fun a' o =>
            if k = toString o.market_id then
              some { name := o.name, pool_id := p.pool_id } else a') a)
          (st.cache.markets k) := by
      have : (save_state st ps nowIso).cache.markets k
          = (ps.foldl (save_pool nowIso) st.cache).markets k := rfl
      rw [this, save_fold_markets]
    rw [hm _ rfl, h2]
    refine foldl_overwrite_idem _ ?_ ps (st.cache.markets k)
    intro p
    exact foldl_dichotomy _ (fun o => by
      by_cases h : k = toString o.market_id
      · right; intro a b; simp [h]
      · left; intro a; simp [h]) p.options
  · intro k
    have hm : (save_state (save_state st ps nowIso) ps nowIso).cache.snapshots k
        = ps.foldl (fun a p => p.options.foldl (fun a' o =>
            if k = toString o.market_id then some (obsOf o nowIso) else a') a)
          ((save_state st ps nowIso).cache.snapshots k) := by
      have : (save_state (save_state st ps nowIso) ps nowIso).cache.snapshots k
          = (ps.foldl (save_pool nowIso) (save_state st ps nowIso).cache).snapshots k := rfl
      rw [this, save_fold_snapshots]
    have h2 : (save_state st ps nowIso).cache.snapshots k
        = ps.foldl (fun a p => p.options.foldl (fun a' o =>
            if k = toString o.market_id then some (obsOf o nowIso) else a') a)
          (st.cache.snapshots k) := by
      have : (save_state st ps nowIso).cache.snapshots k
          = (ps.foldl (save_pool nowIso) st.cache).snapshots k := rfl
      rw [this, save_fold_snapshots]
    rw [hm, h2]
    refine foldl_overwrite_idem _ ?_ ps (st.cache.snapshots k)
    intro p
    exact foldl_dichotomy _ (fun o => by
      by_cases h : k = toString o.market_id
      · right; intro a b; simp [h]
      · left; intro a; simp [h]) p.options
  · intro x
    rw [save_state_known_pool_ids, save_state_known_pool_ids]
    by_cases h : x ∈ ps.map Pool.pool_id <;> simp [h]
  · intro k
    have hm : (save_state (save_state st ps nowIso) ps nowIso).cache.known_market_ids k
        = ps.foldl (fun a p => p.options.foldl (fun a' o =>
            if k = toString o.market_id then true else a') a)
          ((save_state st ps nowIso).cache.known_market_ids k) := by
      have : (save_state (save_state st ps nowIso) ps nowIso).cache.known_market_ids k
          = (ps.foldl (save_pool nowIso) (save_state st ps nowIso).cache).known_market_ids k := rfl
      rw [this, save_fold_known_market_ids]
    have h2 : (save_state st ps nowIso).cache.known_market_ids k
        = ps.foldl (fun a p => p.options.foldl (fun a' o =>
            if k = toString o.market_id then true else a') a)
          (st.cache.known_market_ids k) := by
      have : (save_state st ps nowIso).cache.known_market_ids k
          = (ps.foldl (save_pool nowIso) st.cache).known_market_ids k := rfl
      rw [this, save_fold_known_market_ids]
    rw [hm, h2]
    refine foldl_overwrite_idem _ ?_ ps (st.cache.known_market_ids k)
    intro p
    exact foldl_dichotomy _ (fun o => by
      by_cases h : k = toString o.market_id
      · right; intro a b; simp [h]
      · left; intro a; simp [h]) p.options

/-- C1: on a first run (no prior snapshot), a cycle over any non-empty
fetched Pool list detects zero alerts (all three rules are skipped), hands
nothing to the transport, still persists via `save_state` (the state hash is
written and the init marker set), and afterwards `known_pool_ids` holds
exactly the ids of the input Pools. -/
theorem first_run_cycle (parse : String → Option Rat) (now : Rat)
    (nowIso : String) (ok : Nat → Bool) (db : RedisDB) (fetched : List Pool)
    (h1 : (load_state db).is_first_run = true) (h2 : fetched ≠ []) :
    (run_market_cycle parse now nowIso ok db fetched).result.status = "ok"
    ∧ (run_market_cycle parse now nowIso ok db fetched).result.alerts_detected = some 0
    ∧ (run_market_cycle parse now nowIso ok db fetched).result.alerts_sent = some 0
    ∧ (run_market_cycle parse now nowIso ok db fetched).attempted = []
    ∧ (run_market_cycle parse now nowIso ok db fetched).store.redis.state
        = some (run_market_cycle parse now nowIso ok db fetched).store.cache
    ∧ (run_market_cycle parse now nowIso ok db fetched).store.redis.init_key = true
    ∧ ∀ x, ((run_market_cycle parse now nowIso ok db fetched).store.cache.known_pool_ids x
        = true ↔ x ∈ fetched.map Pool.pool_id) := by
  have hf : fetched.isEmpty = false := by
    simp [List.isEmpty_iff, h2]
  have hred : run_market_cycle parse now nowIso ok db fetched
      = { result := { status := "ok"
                      pools := some fetched.length
                      options := some (fetched.map (fun p => p.options.length)).sum
                      alerts_detected := some 0
                      alerts_sent := some 0
                      first_run := some (save_state (load_state db) fetched nowIso).is_first_run }
          store := save_state (load_state db) fetched nowIso
          attempted := [] } := by
    unfold run_market_cycle detect_phase
    simp [hf, h1]
  rw [hred]
  refine ⟨rfl, rfl, rfl, rfl, rfl, ?_, ?_⟩
  · show (if (load_state db).is_first_run then true else (load_state db).redis.init_key) = true
    rw [h1]
    rfl
  · intro x
    rw [save_state_known_pool_ids, load_first_run_cache db h1]
    simp [emptySnapshotData]

/-- Closed witness for the theorem of C1: the empty database reports first
run, and a one-pool fetch ends with exactly that pool id known. -/
theorem first_run_cycle_witness :
    ((load_state exDB).is_first_run = true ∧ [exClosingPool] ≠ ([] : List Pool))
    ∧ ((run_market_cycle exParse 0 "t0" (fun _ => true) exDB [exClosingPool]).result.status = "ok"
    ∧ (run_market_cycle exParse 0 "t0" (fun _ => true) exDB [exClosingPool]).result.alerts_detected = some 0
    ∧ (run_market_cycle exParse 0 "t0" (fun _ => true) exDB [exClosingPool]).result.alerts_sent = some 0
    ∧ (run_market_cycle exParse 0 "t0" (fun _ => true) exDB [exClosingPool]).attempted = []
    ∧ (run_market_cycle exParse 0 "t0" (fun _ => true) exDB [exClosingPool]).store.redis.state
        = some (run_market_cycle exParse 0 "t0" (fun _ => true) exDB [exClosingPool]).store.cache
    ∧ (run_market_cycle exParse 0 "t0" (fun _ => true) exDB [exClosingPool]).store.redis.init_key = true
    ∧ ∀ x, ((run_market_cycle exParse 0 "t0" (fun _ => true) exDB [exClosingPool]).store.cache.known_pool_ids x
        = true ↔ x ∈ [exClosingPool].map Pool.pool_id)) :=
  ⟨⟨by decide, by decide⟩,
   first_run_cycle exParse 0 "t0" (fun _ => true) exDB [exClosingPool] (by decide) (by decide)⟩

/-- Every alert the `check_new_markets` loop body produces for a pool
carries that pool's id. -/
theorem new_markets_pool_pool_id (parse : String → Option Rat) (now : Rat)
    (st : RedisStore) (p : Pool) :
    ∀ a ∈ new_markets_pool parse now st p, a.pool_id = p.pool_id := by
  intro a ha
  unfold new_markets_pool at ha
  by_cases h : get_known_pool_ids st p.pool_id
  · rw [h] at ha
    simp at ha
    obtain ⟨o, _, rfl⟩ := ha
    rfl
  · rw [Bool.eq_false_iff.mpr h] at ha
    simp at ha
    rw [ha]
    rfl

/-- Filtering a list of alerts that all carry pool id `pid` by pool id `q`
keeps everything or nothing. -/
theorem filter_alerts_all_same (l : List Alert) (pid q : String)
    (h : ∀ a ∈ l, a.pool_id = pid) :
    l.filter (fun a => a.pool_id == q) = if pid == q then l else [] := by
  induction l with
  | nil => simp
  | cons a l ih =>
    have ha : a.pool_id = pid := h a (by simp)
    have hl := ih (fun b hb => h b (by simp [hb]))
    by_cases hq : pid == q
    · simp only [hq, if_true] at hl ⊢
      rw [List.filter_cons, ha, hq, hl]
      rfl
    · simp only [hq, Bool.false_eq_true, if_false] at hl ⊢
      rw [List.filter_cons, ha]
      simp only [hq, Bool.false_eq_true, if_false, hl]

/-- The alerts of `check_new_markets` for pool id `q` are exactly the loop
bodies of the pools with id `q`. -/
theorem check_new_markets_filter (parse : String → Option Rat) (now : Rat)
    (st : RedisStore) (q : String) :
    ∀ ps : List Pool,
    (check_new_markets parse now st ps).filter (fun a => a.pool_id == q)
      = (ps.filter (fun p => p.pool_id == q)).flatMap (new_markets_pool parse now st) := by
  intro ps
  induction ps with
  | nil => rfl
  | cons p ps ih =>
    have hstep : check_new_markets parse now st (p :: ps)
        = new_markets_pool parse now st p ++ check_new_markets parse now st ps := by
      unfold check_new_markets
      rw [List.flatMap_cons]
    rw [hstep, List.filter_append, ih,
      filter_alerts_all_same _ _ _ (new_markets_pool_pool_id parse now st p),
      List.filter_cons]
    by_cases hq : p.pool_id == q
    · rw [if_pos hq, if_pos hq, List.flatMap_cons]
    · rw [if_neg hq, if_neg hq]
      simp

/-- C5: a pool `p` occurring (exactly once by id) in the current list with
`p.pool_id` unknown yields exactly one alert carrying that pool id — the
pool-level `new_market` alert, priority medium — and in particular no
per-option alert for any of `p`'s options. -/
theorem new_pool_one_alert (parse : String → Option Rat) (now : Rat)
    (st : RedisStore) (ps : List Pool) (p : Pool)
    (hocc : ps.filter (fun q => q.pool_id == p.pool_id) = [p])
    (hnew : get_known_pool_ids st p.pool_id = false) :
    (check_new_markets parse now st ps).filter (fun a => a.pool_id == p.pool_id)
      = [new_pool_alert parse now p]
    ∧ (new_pool_alert parse now p).alert_type = "new_market"
    ∧ (new_pool_alert parse now p).priority = "medium"
    ∧ (new_pool_alert parse now p).pool_id = p.pool_id := by
  refine ⟨?_, rfl, rfl, rfl⟩
  rw [check_new_markets_filter, hocc, List.flatMap_cons, List.flatMap_nil,
    List.append_nil]
  unfold new_markets_pool
  rw [hnew]
  rfl

/-- Closed witness for the theorem of C5. -/
theorem new_pool_one_alert_witness :
    ([exClosingPool].filter (fun q => q.pool_id == exClosingPool.pool_id) = [exClosingPool]
      ∧ get_known_pool_ids exStore exClosingPool.pool_id = false)
    ∧ ((check_new_markets exParse 0 exStore [exClosingPool]).filter
          (fun a => a.pool_id == exClosingPool.pool_id)
        = [new_pool_alert exParse 0 exClosingPool]
      ∧ (new_pool_alert exParse 0 exClosingPool).alert_type = "new_market"
      ∧ (new_pool_alert exParse 0 exClosingPool).priority = "medium"
      ∧ (new_pool_alert exParse 0 exClosingPool).pool_id = exClosingPool.pool_id) :=
  ⟨⟨by decide, by decide⟩,
   new_pool_one_alert exParse 0 exStore [exClosingPool] exClosingPool
     (by decide) (by decide)⟩

/-- C6: a known pool `p` occurring (exactly once by id) in the current list
yields no pool-level alert: the alerts carrying its pool id are exactly one
low-priority per-option `new_market` alert for each option whose market id is
not yet known, and none for its already-known options. -/
theorem known_pool_option_alerts (parse : String → Option Rat) (now : Rat)
    (st : RedisStore) (ps : List Pool) (p : Pool)
    (hocc : ps.filter (fun q => q.pool_id == p.pool_id) = [p])
    (hknown : get_known_pool_ids st p.pool_id = true) :
    (check_new_markets parse now st ps).filter (fun a => a.pool_id == p.pool_id)
      = (p.options.filter
          (fun o => !(get_known_market_ids st (toString o.market_id)))).map
          (new_option_alert p)
    ∧ ∀ o, (new_option_alert p o).alert_type = "new_market"
        ∧ (new_option_alert p o).priority = "low"
        ∧ (new_option_alert p o).pool_id = p.pool_id := by
  refine ⟨?_, fun o => ⟨rfl, rfl, rfl⟩⟩
  rw [check_new_markets_filter, hocc, List.flatMap_cons, List.flatMap_nil,
    List.append_nil]
  unfold new_markets_pool
  rw [hknown]
  rfl

/-- Closed witness for the theorem of C6: market 2 is known, market 1 is
new, so exactly the option of market 1 alerts. -/
theorem known_pool_option_alerts_witness :
    ([exMixedPool].filter (fun q => q.pool_id == exMixedPool.pool_id) = [exMixedPool]
      ∧ get_known_pool_ids exKnownStore exMixedPool.pool_id = true)
    ∧ ((check_new_markets exParse 0 exKnownStore [exMixedPool]).filter
          (fun a => a.pool_id == exMixedPool.pool_id)
        = (exMixedPool.options.filter
            (fun o => !(get_known_market_ids exKnownStore (toString o.market_id)))).map
            (new_option_alert exMixedPool)
      ∧ ∀ o, (new_option_alert exMixedPool o).alert_type = "new_market"
          ∧ (new_option_alert exMixedPool o).priority = "low"
          ∧ (new_option_alert exMixedPool o).pool_id = exMixedPool.pool_id) :=
  ⟨⟨by decide, by decide⟩,
   known_pool_option_alerts exParse 0 exKnownStore [exMixedPool] exMixedPool
     (by decide) (by decide)⟩

/-- Recording a cooldown does not touch the in-memory cache. -/
theorem record_odds_cache (st : RedisStore) (m : Int) (now : Rat) :
    (record_odds_cooldown st m now).cache = st.cache := rfl

/-- The odds step never touches the in-memory cache. -/
theorem odds_step_cache (now : Rat) (p : Pool) (o : MarketOption) (st : RedisStore) :
    (odds_step now p o st).2.cache = st.cache := by
  unfold odds_step
  rcases get_latest_snapshot st o.market_id with _ | prev
  · rfl
  · dsimp only
    split_ifs <;> rfl

/-- A market is on cooldown at the instant its cooldown is recorded. -/
theorem is_odds_record_self (st : RedisStore) (m : Int) (now : Rat) :
    is_odds_on_cooldown (record_odds_cooldown st m now) m now = true := by
  simp [is_odds_on_cooldown, record_odds_cooldown, ODDS_CHANGE_COOLDOWN_MINUTES]

/-- Recording a cooldown for `m` leaves every other market's cooldown as it
was. -/
theorem is_odds_record_other (st : RedisStore) (m m' : Int) (now now2 : Rat)
    (h : m' ≠ m) :
    is_odds_on_cooldown (record_odds_cooldown st m now) m' now2
      = is_odds_on_cooldown st m' now2 := by
  simp [is_odds_on_cooldown, record_odds_cooldown, h]

/-- Recording a cooldown never deactivates an active cooldown. -/
theorem is_odds_record_mono (st : RedisStore) (m m' : Int) (now : Rat)
    (h : is_odds_on_cooldown st m' now = true) :
    is_odds_on_cooldown (record_odds_cooldown st m now) m' now = true := by
  by_cases hm : m' = m
  · subst hm
    exact is_odds_record_self st m' now
  · rw [is_odds_record_other st m m' now now hm]
    exact h

/-- The odds step never deactivates an active cooldown. -/
theorem odds_step_preserves_cooldown (now : Rat) (p : Pool) (o : MarketOption)
    (st : RedisStore) (m : Int)
    (h : is_odds_on_cooldown st m now = true) :
    is_odds_on_cooldown (odds_step now p o st).2 m now = true := by
  unfold odds_step
  rcases get_latest_snapshot st o.market_id with _ | prev
  · exact h
  · dsimp only
    split_ifs
    · exact h
    · exact h
    · exact is_odds_record_mono st o.market_id m now h

/-- The per-pool odds loop never deactivates an active cooldown. -/
theorem odds_opts_loop_preserves (now : Rat) (p : Pool) :
    ∀ (os : List MarketOption) (st : RedisStore) (m : Int),
    is_odds_on_cooldown st m now = true →
    is_odds_on_cooldown (odds_opts_loop now p os st).2 m now = true := by
  intro os
  induction os with
  | nil => intro st m h; exact h
  | cons o os ih =>
    intro st m h
    rw [odds_opts_loop]
    exact ih _ m (odds_step_preserves_cooldown now p o st m h)

/-- `check_odds_changes` never deactivates an active cooldown. -/
theorem check_odds_preserves (now : Rat) :
    ∀ (ps : List Pool) (st : RedisStore) (m : Int),
    is_odds_on_cooldown st m now = true →
    is_odds_on_cooldown (check_odds_changes now ps st).2 m now = true := by
  intro ps
  induction ps with
  | nil => intro st m h; exact h
  | cons p ps ih =>
    intro st m h
    rw [check_odds_changes]
    exact ih _ m (odds_opts_loop_preserves now p p.options st m h)

/-- The odds step against a store that agrees with `st0` on the cache and on
this market's cooldown emits according to `odds_decision st0` and records the
cooldown exactly when it emits. -/
theorem odds_step_eq (now : Rat) (p : Pool) (o : MarketOption)
    (st st0 : RedisStore) (hc : st.cache = st0.cache)
    (hcd : is_odds_on_cooldown st o.market_id now
      = is_odds_on_cooldown st0 o.market_id now) :
    odds_step now p o st
      = ((odds_decision st0 now p o).toList,
         if (odds_decision st0 now p o).isSome then
           record_odds_cooldown st o.market_id now
         else st) := by
  have hsnap : get_latest_snapshot st o.market_id
      = get_latest_snapshot st0 o.market_id := by
    unfold get_latest_snapshot
    rw [hc]
  unfold odds_step odds_decision
  rw [hsnap, hcd]
  rcases get_latest_snapshot st0 o.market_id with _ | prev
  · rfl
  · dsimp only
    by_cases h1 : |o.yes_pct - prev.yes_pct| < ODDS_CHANGE_THRESHOLD_PP
    · simp [h1]
    · by_cases h2 : is_odds_on_cooldown st0 o.market_id now = true
      · simp [h1, h2]
      · simp [h1, h2]

/-- Master characterisation of the per-pool odds loop: against a store
agreeing with `st0` on the cache and on the cooldowns of the still-unprocessed
markets, and with pairwise-distinct market ids, the loop emits exactly the
per-option decisions taken against `st0`, touches no cache, changes no
cooldown outside the processed ids, and leaves every emitting market on
cooldown. -/
theorem odds_opts_loop_master (now : Rat) (p : Pool) :
    ∀ (os : List MarketOption) (st st0 : RedisStore),
    st.cache = st0.cache →
    (∀ o ∈ os, is_odds_on_cooldown st o.market_id now
      = is_odds_on_cooldown st0 o.market_id now) →
    (os.map MarketOption.market_id).Nodup →
    (odds_opts_loop now p os st).1 = os.filterMap (odds_decision st0 now p)
    ∧ (odds_opts_loop now p os st).2.cache = st0.cache
    ∧ (∀ m, m ∉ os.map MarketOption.market_id →
        is_odds_on_cooldown (odds_opts_loop now p os st).2 m now
          = is_odds_on_cooldown st m now)
    ∧ (∀ o ∈ os, (odds_decision st0 now p o).isSome = true →
        is_odds_on_cooldown (odds_opts_loop now p os st).2 o.market_id now = true) := by
  intro os
  induction os with
  | nil =>
    intro st st0 hc hcd hnd
    exact ⟨rfl, hc, fun m _ => rfl, fun o ho => absurd ho (List.not_mem_nil o)⟩
  | cons o os ih =>
    intro st st0 hc hcd hnd
    have hstep := odds_step_eq now p o st st0 hc (hcd o (List.mem_cons_self o os))
    have hnotmem : o.market_id ∉ os.map MarketOption.market_id := by
      rw [List.map_cons] at hnd
      exact (List.nodup_cons.mp hnd).1
    have hndtl : (os.map MarketOption.market_id).Nodup := by
      rw [List.map_cons] at hnd
      exact (List.nodup_cons.mp hnd).2
    have hcache2 : (odds_step now p o st).2.cache = st0.cache := by
      rw [odds_step_cache]
      exact hc
    have hcd2 : ∀ o' ∈ os, is_odds_on_cooldown (odds_step now p o st).2 o'.market_id now
        = is_odds_on_cooldown st0 o'.market_id now := by
      intro o' ho'
      have hne : o'.market_id ≠ o.market_id := by
        intro he
        exact hnotmem (he ▸ List.mem_map_of_mem MarketOption.market_id ho')
      rw [hstep]
      by_cases hd : (odds_decision st0 now p o).isSome = true
      · rw [if_pos hd, is_odds_record_other st o.market_id o'.market_id now now hne]
        exact hcd o' (List.mem_cons_of_mem o ho')
      · rw [if_neg hd]
        exact hcd o' (List.mem_cons_of_mem o ho')
    obtain ⟨ih1, ih2, ih3, ih4⟩ := ih (odds_step now p o st).2 st0 hcache2 hcd2 hndtl
    have hloop : odds_opts_loop now p (o :: os) st
        = ((odds_step now p o st).1 ++ (odds_opts_loop now p os (odds_step now p o st).2).1,
           (odds_opts_loop now p os (odds_step now p o st).2).2) := rfl
    refine ⟨?_, ?_, ?_, ?_⟩
    · rw [hloop]
      dsimp only
      rw [ih1, hstep]
      rcases hd : odds_decision st0 now p o with _ | a
      · simp [List.filterMap_cons, hd]
      · simp [List.filterMap_cons, hd]
    · rw [hloop]
      exact ih2
    · intro m hm
      rw [List.map_cons, List.mem_cons] at hm
      push_neg at hm
      rw [hloop]
      dsimp only
      rw [ih3 m hm.2, hstep]
      by_cases hd : (odds_decision st0 now p o).isSome = true
      · rw [if_pos hd, is_odds_record_other st o.market_id m now now hm.1]
      · rw [if_neg hd]
    · intro o' ho' hsome
      rcases List.mem_cons.mp ho' with rfl | htl
      · rw [hloop]
        dsimp only
        apply odds_opts_loop_preserves
        rw [hstep, if_pos hsome]
        exact is_odds_record_self st o'.market_id now
      · rw [hloop]
        dsimp only
        exact ih4 o' htl hsome

/-- Master characterisation of `check_odds_changes`, lifting
`odds_opts_loop_master` over the pool list. -/
theorem check_odds_master (now : Rat) :
    ∀ (ps : List Pool) (st st0 : RedisStore),
    st.cache = st0.cache →
    (∀ m ∈ ps.flatMap (fun p => p.options.map MarketOption.market_id),
        is_odds_on_cooldown st m now = is_odds_on_cooldown st0 m now) →
    (ps.flatMap (fun p => p.options.map MarketOption.market_id)).Nodup →
    (check_odds_changes now ps st).1
      = ps.flatMap (fun p => p.options.filterMap (odds_decision st0 now p))
    ∧ (check_odds_changes now ps st).2.cache = st0.cache
    ∧ (∀ m, m ∉ ps.flatMap (fun p => p.options.map MarketOption.market_id) →
        is_odds_on_cooldown (check_odds_changes now ps st).2 m now
          = is_odds_on_cooldown st m now)
    ∧ (∀ p ∈ ps, ∀ o ∈ p.options, (odds_decision st0 now p o).isSome = true →
        is_odds_on_cooldown (check_odds_changes now ps st).2 o.market_id now = true) := by
  intro ps
  induction ps with
  | nil =>
    intro st st0 hc hcd hnd
    exact ⟨rfl, hc, fun m _ => rfl, fun p hp => absurd hp (List.not_mem_nil p)⟩
  | cons p ps ih =>
    intro st st0 hc hcd hnd
    rw [List.flatMap_cons] at hcd hnd
    have hnd1 : (p.options.map MarketOption.market_id).Nodup :=
      (List.nodup_append.mp hnd).1
    have hnd2 : (ps.flatMap (fun p => p.options.map MarketOption.market_id)).Nodup :=
      (List.nodup_append.mp hnd).2.1
    have hdisj := (List.nodup_append.mp hnd).2.2
    obtain ⟨m1, m2, m3, m4⟩ := odds_opts_loop_master now p p.options st st0 hc
      (fun o ho => hcd o.market_id
        (List.mem_append_left _ (List.mem_map_of_mem MarketOption.market_id ho)))
      hnd1
    have hcd2 : ∀ m ∈ ps.flatMap (fun p => p.options.map MarketOption.market_id),
        is_odds_on_cooldown (odds_opts_loop now p p.options st).2 m now
          = is_odds_on_cooldown st0 m now := by
      intro m hm
      have hm1 : m ∉ p.options.map MarketOption.market_id := fun hmem => hdisj hmem hm
      rw [m3 m hm1]
      exact hcd m (List.mem_append_right _ hm)
    obtain ⟨ih1, ih2, ih3, ih4⟩ :=
      ih (odds_opts_loop now p p.options st).2 st0 m2 hcd2 hnd2
    have hloop : check_odds_changes now (p :: ps) st
        = ((odds_opts_loop now p p.options st).1
            ++ (check_odds_changes now ps (odds_opts_loop now p p.options st).2).1,
           (check_odds_changes now ps (odds_opts_loop now p p.options st).2).2) := rfl
    refine ⟨?_, ?_, ?_, ?_⟩
    · rw [hloop]
      dsimp only
      rw [ih1, m1, List.flatMap_cons]
    · rw [hloop]
      exact ih2
    · intro m hm
      rw [List.flatMap_cons, List.mem_append] at hm
      push_neg at hm
      rw [hloop]
      dsimp only
      rw [ih3 m hm.2, m3 m hm.1]
    · intro p' hp' o ho hsome
      rcases List.mem_cons.mp hp' with rfl | htl
      · rw [hloop]
        dsimp only
        exact check_odds_preserves now ps _ o.market_id (m4 o ho hsome)
      · rw [hloop]
        dsimp only
        exact ih4 p' htl o ho hsome

/-- C3: with pairwise-distinct market ids, `check_odds_changes` emits an
`odds_change` alert for an option exactly when the snapshot holds a previous
observation for its market, the absolute percentage-point change reaches the
threshold (default 10), and the market has no active cooldown; an emitted
alert's priority is `"high"` when the absolute change is at least 20 and
`"medium"` otherwise, and every emitting market's cooldown key is recorded in
the resulting store. -/
theorem check_odds_changes_spec (now : Rat) (st : RedisStore) (ps : List Pool)
    (hnd : (ps.flatMap (fun p => p.options.map MarketOption.market_id)).Nodup) :
    (check_odds_changes now ps st).1
      = ps.flatMap (fun p => p.options.filterMap (odds_decision st now p))
    ∧ (∀ p : Pool, ∀ o : MarketOption, (odds_decision st now p o).isSome = true ↔
        ∃ prev, get_latest_snapshot st o.market_id = some prev
          ∧ ODDS_CHANGE_THRESHOLD_PP ≤ |o.yes_pct - prev.yes_pct|
          ∧ is_odds_on_cooldown st o.market_id now = false)
    ∧ (∀ (p : Pool) (o : MarketOption) (a : Alert), odds_decision st now p o = some a →
        a.alert_type = "odds_change"
        ∧ ∃ prev, get_latest_snapshot st o.market_id = some prev
          ∧ a.priority = (if 20 ≤ |o.yes_pct - prev.yes_pct| then "high" else "medium"))
    ∧ (∀ p ∈ ps, ∀ o ∈ p.options, (odds_decision st now p o).isSome = true →
        is_odds_on_cooldown (check_odds_changes now ps st).2 o.market_id now = true) := by
  obtain ⟨m1, _, _, m4⟩ := check_odds_master now ps st st rfl (fun m _ => rfl) hnd
  refine ⟨m1, ?_, ?_, m4⟩
  · intro p o
    unfold odds_decision
    rcases hsnap : get_latest_snapshot st o.market_id with _ | prev
    · simp
    · dsimp only
      by_cases h1 : |o.yes_pct - prev.yes_pct| < ODDS_CHANGE_THRESHOLD_PP
      · rw [if_pos h1]
        simp only [Option.isSome_none, Bool.false_eq_true, false_iff, not_exists]
        intro prev2 hpair
        obtain ⟨hp, hthr, _⟩ := hpair
        injection hp with he
        subst he
        exact absurd hthr (not_le.mpr h1)
      · rw [if_neg h1]
        by_cases h2 : is_odds_on_cooldown st o.market_id now = true
        · rw [if_pos h2]
          simp only [Option.isSome_none, Bool.false_eq_true, false_iff, not_exists]
          intro prev2 hpair
          obtain ⟨hp, _, hcd⟩ := hpair
          rw [h2] at hcd
          exact absurd hcd (by simp)
        · rw [if_neg h2]
          simp only [Option.isSome_some, true_iff]
          exact ⟨prev, rfl, not_lt.mp h1, Bool.eq_false_iff.mpr h2⟩
  · intro p o a ha
    unfold odds_decision at ha
    rcases hsnap : get_latest_snapshot st o.market_id with _ | prev <;> rw [hsnap] at ha
    · exact absurd ha (by simp)
    · dsimp only at ha
      by_cases h1 : |o.yes_pct - prev.yes_pct| < ODDS_CHANGE_THRESHOLD_PP
      · rw [if_pos h1] at ha
        exact absurd ha (by simp)
      · rw [if_neg h1] at ha
        by_cases h2 : is_odds_on_cooldown st o.market_id now = true
        · rw [if_pos h2] at ha
          exact absurd ha (by simp)
        · rw [if_neg h2] at ha
          injection ha with he
          subst he
          exact ⟨rfl, prev, rfl, rfl⟩

/-- Closed witness for the theorem of C3: one pool, one option, a +15pp
change over the remembered 50%. -/
theorem check_odds_changes_spec_witness :
    ([exOddsPool].flatMap (fun p => p.options.map MarketOption.market_id)).Nodup
    ∧ ((check_odds_changes 0 [exOddsPool] exSnapStore).1
      = [exOddsPool].flatMap (fun p => p.options.filterMap (odds_decision exSnapStore 0 p))
    ∧ (∀ p : Pool, ∀ o : MarketOption, (odds_decision exSnapStore 0 p o).isSome = true ↔
        ∃ prev, get_latest_snapshot exSnapStore o.market_id = some prev
          ∧ ODDS_CHANGE_THRESHOLD_PP ≤ |o.yes_pct - prev.yes_pct|
          ∧ is_odds_on_cooldown exSnapStore o.market_id 0 = false)
    ∧ (∀ (p : Pool) (o : MarketOption) (a : Alert),
        odds_decision exSnapStore 0 p o = some a →
        a.alert_type = "odds_change"
        ∧ ∃ prev, get_latest_snapshot exSnapStore o.market_id = some prev
          ∧ a.priority = (if 20 ≤ |o.yes_pct - prev.yes_pct| then "high" else "medium"))
    ∧ (∀ p ∈ [exOddsPool], ∀ o ∈ p.options,
        (odds_decision exSnapStore 0 p o).isSome = true →
        is_odds_on_cooldown (check_odds_changes 0 [exOddsPool] exSnapStore).2
          o.market_id 0 = true)) :=
  ⟨by decide, check_odds_changes_spec 0 exSnapStore [exOddsPool] (by decide)⟩

/-- Erasing a market's options changes nothing the odds step reads from the
pool record. -/
theorem odds_step_erase (now : Rat) (m : Int) (p : Pool) (o : MarketOption)
    (st : RedisStore) :
    odds_step now (erase_market m p) o st = odds_step now p o st := by
  cases p
  rfl

/-- With market `m` on cooldown, the per-pool odds loop treats options of
market `m` as absent. -/
theorem odds_opts_loop_erase (now : Rat) (p : Pool) (m : Int) :
    ∀ (os : List MarketOption) (st : RedisStore),
    is_odds_on_cooldown st m now = true →
    odds_opts_loop now p os st
      = odds_opts_loop now p (os.filter (fun o => !(o.market_id == m))) st := by
  intro os
  induction os with
  | nil => intro st _; rfl
  | cons o os ih =>
    intro st h
    by_cases hm : o.market_id = m
    · have hstep : odds_step now p o st = ([], st) := by
        unfold odds_step
        rcases hsnap : get_latest_snapshot st o.market_id with _ | prev
        · rfl
        · dsimp only
          rw [hm, h]
          split_ifs <;> simp_all
      have hfil : (o :: os).filter (fun o => !(o.market_id == m))
          = os.filter (fun o => !(o.market_id == m)) := by
        rw [List.filter_cons]
        simp [hm]
      rw [hfil, ← ih st h]
      show ((odds_step now p o st).1 ++ (odds_opts_loop now p os (odds_step now p o st).2).1,
        (odds_opts_loop now p os (odds_step now p o st).2).2) = _
      rw [hstep]
      simp
    · have hfil : (o :: os).filter (fun o => !(o.market_id == m))
          = o :: os.filter (fun o => !(o.market_id == m)) := by
        rw [List.filter_cons]
        simp [hm]
      rw [hfil]
      show ((odds_step now p o st).1 ++ (odds_opts_loop now p os (odds_step now p o st).2).1,
        (odds_opts_loop now p os (odds_step now p o st).2).2)
        = ((odds_step now p o st).1
            ++ (odds_opts_loop now p (os.filter (fun o => !(o.market_id == m)))
                (odds_step now p o st).2).1,
           (odds_opts_loop now p (os.filter (fun o => !(o.market_id == m)))
              (odds_step now p o st).2).2)
      rw [ih (odds_step now p o st).2 (odds_step_preserves_cooldown now p o st m h)]

/-- The per-pool odds loop only reads a pool's scalar fields, so the erased
pool drives it identically. -/
theorem odds_opts_loop_pool_erase (now : Rat) (m : Int) (p : Pool) :
    ∀ (os : List MarketOption) (st : RedisStore),
    odds_opts_loop now (erase_market m p) os st = odds_opts_loop now p os st := by
  intro os
  induction os with
  | nil => intro st; rfl
  | cons o os ih =>
    intro st
    show ((odds_step now (erase_market m p) o st).1
        ++ (odds_opts_loop now (erase_market m p) os (odds_step now (erase_market m p) o st).2).1,
      (odds_opts_loop now (erase_market m p) os (odds_step now (erase_market m p) o st).2).2)
      = ((odds_step now p o st).1 ++ (odds_opts_loop now p os (odds_step now p o st).2).1,
        (odds_opts_loop now p os (odds_step now p o st).2).2)
    rw [odds_step_erase, ih]

/-- C4: while a market is on an active cooldown, `check_odds_changes`
behaves — in its alert output and in every store effect — exactly as if every
option of that market were absent from the fetched pools: no `odds_change`
alert is emitted for that market, whatever the magnitude of its change.
Applied to the store produced by a pass that just emitted for the market
(which C3 shows holds its cooldown), a second pass over the same pools emits
nothing for it. -/
theorem cooldown_suppresses_market (now : Rat) (st : RedisStore)
    (ps : List Pool) (m : Int)
    (h : is_odds_on_cooldown st m now = true) :
    check_odds_changes now ps st
      = check_odds_changes now (ps.map (erase_market m)) st := by
  induction ps generalizing st with
  | nil => rfl
  | cons p ps ih =>
    rw [List.map_cons]
    show ((odds_opts_loop now p p.options st).1
        ++ (check_odds_changes now ps (odds_opts_loop now p p.options st).2).1,
      (check_odds_changes now ps (odds_opts_loop now p p.options st).2).2)
      = ((odds_opts_loop now (erase_market m p) (erase_market m p).options st).1
        ++ (check_odds_changes now (ps.map (erase_market m))
            (odds_opts_loop now (erase_market m p) (erase_market m p).options st).2).1,
        (check_odds_changes now (ps.map (erase_market m))
            (odds_opts_loop now (erase_market m p) (erase_market m p).options st).2).2)
    have hopts : (erase_market m p).options = p.options.filter (fun o => !(o.market_id == m)) := rfl
    rw [hopts, odds_opts_loop_pool_erase, ← odds_opts_loop_erase now p m p.options st h,
      ← ih _ (odds_opts_loop_preserves now p p.options st m h)]

/-- Closed witness for the theorem of C4: market 1 on cooldown, a +15pp
change suppressed. -/
theorem cooldown_suppresses_market_witness :
    is_odds_on_cooldown exCooldownStore 1 0 = true
    ∧ check_odds_changes 0 [exOddsPool] exCooldownStore
      = check_odds_changes 0 ([exOddsPool].map (erase_market 1)) exCooldownStore :=
  ⟨by decide, cooldown_suppresses_market 0 exCooldownStore [exOddsPool] 1 (by decide)⟩

/-- C2: evaluated at a pool first observed with `hours_left = 5` (end date
parsing to instant 18000, cycle instant 0) and an empty Ledger, the code
emits exactly one `closing_soon` alert for the `"24h"` window with priority
`"low"` — not the `"6h"` window with `"medium"` — records the `"24h"` key
(and not `"6h"`), and a second detection pass in the resulting state emits a
further `closing_soon` alert (the `"6h"` window, priority `"medium"`),
contradicting both the claimed window/priority and the claimed second-pass
silence; the code's own comment says it alerts for the most urgent window. -/
theorem closing_hours5_behaviour :
    ((check_closing_soon exParse 0 [exClosingPool] exStore).1.map Alert.priority = ["low"])
    ∧ ((check_closing_soon exParse 0 [exClosingPool] exStore).1.map Alert.alert_type
        = ["closing_soon"])
    ∧ ((check_closing_soon exParse 0 [exClosingPool] exStore).2.redis.closing ("p1", "24h")
        = some 86400)
    ∧ ((check_closing_soon exParse 0 [exClosingPool] exStore).2.redis.closing ("p1", "6h")
        = none)
    ∧ ((check_closing_soon exParse 0 [exClosingPool]
          ((check_closing_soon exParse 0 [exClosingPool] exStore).2)).1.map Alert.priority
        = ["medium"]) := by
  norm_num [check_closing_soon, closing_pool_step, closing_windows_loop,
    has_closing_alert_been_sent, record_closing_alert, closing_alert,
    CLOSING_WINDOWS_HOURS, exStore, exDB, exParse, exClosingPool, load_state]
  simp
  decide

end TrendzBR
